import Mathlib

/-!
Shallow embedding of the request-handling and data-access logic of
`src/main.py` (a Flask + SQLAlchemy REST API over two MySQL tables,
`businesses` and `reviews`).

Modelling conventions:
* The relational store is a `DB` value: the two tables as lists of rows in
  insertion order, plus the AUTO_INCREMENT counters used by
  `last_insert_id()`.  `SERIAL` ids start at 1.
* A JSON body for the business handlers is an association list
  `List (String × Value)` (the handlers use `len(content)` and key lookups);
  a JSON body for the review handlers is a record of `Option` fields,
  matching the `content.get(...)` access pattern (those handlers never
  count fields).
* `one_or_none()` is modelled by `oneOrNone`: `none` encodes the
  MultipleResultsFound exception, `some none` no row, `some (some r)` one row.
* An unhandled Python/driver exception (missing dict key, or the store
  rejecting a statement via the `CHECK (stars >= 0 AND stars <= 5)`
  constraint) is the outcome `storeError`; the enclosing transaction is
  rolled back, so the state is unchanged.  VARCHAR width limits are not
  modelled (no claim depends on them).
* `request.url_root` is an abstract string `u` (ending in "/" on a real
  request); `request.url` / `request.base_url` for the query-less requests
  of each route are computed from it exactly as Flask would.
-/

namespace RestApi

/-- A JSON scalar occurring as a field value of a request body. -/
inductive Value where
  | vint (i : Int)
  | vstr (s : String)
  deriving DecidableEq, Repr

/-- A JSON object body, as an association list of fields (`request.get_json()`).
JSON objects have distinct keys; where a fact needs that, it is a hypothesis. -/
abbrev Body := List (String × Value)

/-- Lookup of a field value, as Python dict access. -/
def Body.getVal (body : Body) (k : String) : Option Value :=
  (body.find? (fun p => p.1 == k)).map (fun p => p.2)

/-- Read a field as an integer (`content[k]` used as an INT column value). -/
def Body.getInt (body : Body) (k : String) : Option Int :=
  match body.getVal k with
  | some (Value.vint i) => some i
  | _ => none

/-- Read a field as a string (`content[k]` used as a VARCHAR column value). -/
def Body.getStr (body : Body) (k : String) : Option String :=
  match body.getVal k with
  | some (Value.vstr s) => some s
  | _ => none

/-- A row of the `businesses` table (schema from `create_table`). -/
structure Business where
  id : Int
  owner_id : Int
  name : String
  street_address : String
  city : String
  state : String
  zip_code : String
  deriving DecidableEq, Repr

/-- A row of the `reviews` table (schema from `create_table`). -/
structure Review where
  id : Int
  user_id : Int
  business_id : Int
  stars : Int
  review_text : String
  deriving DecidableEq, Repr

/-- The relational store: both tables plus the AUTO_INCREMENT counters. -/
structure DB where
  businesses : List Business
  reviews : List Review
  nextBusinessId : Int
  nextReviewId : Int
  deriving DecidableEq, Repr

/-- The freshly created (empty) store; SERIAL counters start at 1. -/
def DB.empty : DB := ⟨[], [], 1, 1⟩

/-- `Result.one_or_none()`: `none` models the raised exception when more than
one row matches, `some none` an empty result, `some (some a)` a single row. -/
def oneOrNone {α : Type} : List α → Option (Option α)
  | [] => some none
  | [a] => some (some a)
  | _ => none

/-- Error payload strings from the constants at the top of `main.py`. -/
def ERROR_MISSING_ATTRIBUTES : String :=
  "The request body is missing at least one of the required attributes"

def ERROR_BUSINESS_NOT_FOUND : String :=
  "No business with this business_id exists"

def ERROR_REVIEW_CONFLICT : String :=
  "You have already submitted a review for this business. You can update your previous review, or delete it and submit a new review"

def ERROR_REVIEW_NOT_FOUND : String :=
  "No review with this review_id exists"

/-- Outcome of one handler invocation: a JSON success body with its status
code, an error payload `{"Error": msg}` with its status code, or an
unhandled exception surfaced by Flask as a 500 (`storeError`). -/
inductive Outcome (α : Type) where
  | ok (status : Nat) (body : α)
  | err (status : Nat) (msg : String)
  | storeError
  deriving DecidableEq, Repr

/-- Status code an HTTP client observes for an outcome (Flask turns an
unhandled exception into a 500 response). -/
def Outcome.status {α : Type} : Outcome α → Nat
  | .ok s _ => s
  | .err s _ => s
  | .storeError => 500

/-- JSON representation of a business as returned by the business handlers:
the row fields plus a `self` link. -/
structure BusinessRepr where
  id : Int
  owner_id : Int
  name : String
  street_address : String
  city : String
  state : String
  zip_code : String
  self : String
  deriving DecidableEq, Repr

/-- JSON representation of a review as returned by the review handlers: the
raw `business_id` is replaced by a derived `business` link. -/
structure ReviewRepr where
  id : Int
  user_id : Int
  business : String
  stars : Int
  review_text : String
  self : String
  deriving DecidableEq, Repr

/-- Response body of `GET /businesses`: the page entries plus the `next` link. -/
structure PageResult where
  entries : List BusinessRepr
  next : String
  deriving DecidableEq, Repr

/-- The six fields read by `post_business` / `put_business`, extracted in the
order the handler reads them; `none` when a key is absent or has the wrong
type for its column (a KeyError / statement error in Python). -/
def Body.businessFields (body : Body) :
    Option (Int × String × String × String × String × String) := do
  let owner ← body.getInt "owner_id"
  let nm ← body.getStr "name"
  let sa ← body.getStr "street_address"
  let ci ← body.getStr "city"
  let st ← body.getStr "state"
  let zc ← body.getStr "zip_code"
  return (owner, nm, sa, ci, st, zc)

/-- `POST /businesses` (`post_business`): rejects any body whose field count
differs from 6, then inserts and answers 201 with a `self` link built as
`str(request.url) + str(b_id)` (note: no separator in the source). -/
def post_business (u : String) (db : DB) (content : Body) :
    DB × Outcome BusinessRepr :=
  if content.length ≠ 6 then (db, .err 400 ERROR_MISSING_ATTRIBUTES)
  else
    match content.businessFields with
    | none => (db, .storeError)
    | some (owner, nm, sa, ci, st, zc) =>
      let b_id := db.nextBusinessId
      let row : Business := ⟨b_id, owner, nm, sa, ci, st, zc⟩
      let db' : DB := { db with
        businesses := db.businesses ++ [row]
        nextBusinessId := b_id + 1 }
      let b_url := (u ++ "businesses") ++ toString b_id
      (db', .ok 201 ⟨b_id, owner, nm, sa, ci, st, zc, b_url⟩)

/-- `GET /businesses/<id>` (`get_business`): single-row lookup by primary
key; `self` is `str(request.base_url)`. -/
def get_business (u : String) (db : DB) (business_id : Int) :
    Outcome BusinessRepr :=
  match oneOrNone (db.businesses.filter (fun b => b.id == business_id)) with
  | none => .storeError
  | some none => .err 404 ERROR_BUSINESS_NOT_FOUND
  | some (some b) =>
    .ok 200 ⟨b.id, b.owner_id, b.name, b.street_address, b.city, b.state,
             b.zip_code, u ++ "businesses/" ++ toString business_id⟩

/-- Insert one business into a list sorted by ascending id. -/
def insertById (b : Business) : List Business → List Business
  | [] => [b]
  | c :: cs => if b.id ≤ c.id then b :: c :: cs else c :: insertById b cs

/-- `ORDER BY id` over the stored rows. -/
def sortById : List Business → List Business
  | [] => []
  | b :: bs => insertById b (sortById bs)

/-- The `self` link given to a listed business, built from `request.url_root`. -/
def businessSelf (u : String) (b : Business) : BusinessRepr :=
  ⟨b.id, b.owner_id, b.name, b.street_address, b.city, b.state, b.zip_code,
   u ++ "businesses/" ++ toString b.id⟩

/-- `GET /businesses` (`get_businesses`): query parameters default to
`offset=0`, `limit=3`; rows come back `ORDER BY id LIMIT :limit
OFFSET :offset`; the `next` link advances `offset` by `limit`
unconditionally. -/
def get_businesses (u : String) (db : DB) (offsetArg limitArg : Option Nat) :
    Outcome PageResult :=
  let offset := offsetArg.getD 0
  let limit := limitArg.getD 3
  let rows := ((sortById db.businesses).drop offset).take limit
  let entries := rows.map (businessSelf u)
  let next_url := u ++ "businesses?offset=" ++ toString (offset + limit) ++
    "&limit=" ++ toString limit
  .ok 200 ⟨entries, next_url⟩

/-- `GET /owners/<id>/businesses` (`get_businesses__of_owner`). -/
def get_businesses__of_owner (u : String) (db : DB) (owner_id : Int) :
    List BusinessRepr :=
  (db.businesses.filter (fun b => b.owner_id == owner_id)).map (businessSelf u)

/-- `PUT /businesses/<id>` (`put_business`): same strict field-count check as
create, then an existence check, then a full-replacement UPDATE. -/
def put_business (u : String) (db : DB) (business_id : Int) (content : Body) :
    DB × Outcome BusinessRepr :=
  if content.length ≠ 6 then (db, .err 400 ERROR_MISSING_ATTRIBUTES)
  else
    match oneOrNone (db.businesses.filter (fun b => b.id == business_id)) with
    | none => (db, .storeError)
    | some none => (db, .err 404 ERROR_BUSINESS_NOT_FOUND)
    | some (some _) =>
      match content.businessFields with
      | none => (db, .storeError)
      | some (owner, nm, sa, ci, st, zc) =>
        let db' : DB := { db with
          businesses := db.businesses.map (fun b =>
            if b.id == business_id then
              { b with owner_id := owner, name := nm, street_address := sa,
                       city := ci, state := st, zip_code := zc }
            else b) }
        (db', .ok 200 ⟨business_id, owner, nm, sa, ci, st, zc,
          u ++ "businesses/" ++ toString business_id⟩)

/-- `DELETE /businesses/<id>` (`delete_business`): deletes the referencing
reviews, then the business row, commits both, and answers by the row count
of the business deletion (204 when it is 1, else 404). -/
def delete_business (db : DB) (business_id : Int) : DB × Outcome Unit :=
  let businessMatches :=
    (db.businesses.filter (fun b => b.id == business_id)).length
  let db' : DB := { db with
    reviews := db.reviews.filter (fun r => !(r.business_id == business_id))
    businesses := db.businesses.filter (fun b => !(b.id == business_id)) }
  if businessMatches == 1 then (db', .ok 204 ())
  else (db', .err 404 ERROR_BUSINESS_NOT_FOUND)

/-- A JSON body for the review handlers, which read fields only through
`content.get(...)`: each field is `none` exactly when absent. -/
structure ReviewBody where
  user_id : Option Int
  business_id : Option Int
  stars : Option Int
  review_text : Option String
  deriving DecidableEq, Repr

/-- The store-level constraint `CHECK (stars >= 0 AND stars <= 5)` on the
`reviews` table. -/
def starsOK (s : Int) : Prop := 0 ≤ s ∧ s ≤ 5

instance (s : Int) : Decidable (starsOK s) := by
  unfold starsOK; infer_instance

/-- `POST /reviews` (`post_review`): per-field presence checks, business
existence check, (user_id, business_id) conflict check, then the INSERT
(which the store rejects when `stars` violates the CHECK constraint). -/
def post_review (u : String) (db : DB) (content : ReviewBody) :
    DB × Outcome ReviewRepr :=
  match content.user_id, content.business_id, content.stars with
  | some uid, some bid, some stars =>
    match oneOrNone (db.businesses.filter (fun b => b.id == bid)) with
    | none => (db, .storeError)
    | some none => (db, .err 404 ERROR_BUSINESS_NOT_FOUND)
    | some (some _) =>
      match oneOrNone (db.reviews.filter
          (fun r => r.business_id == bid && r.user_id == uid)) with
      | none => (db, .storeError)
      | some (some _) => (db, .err 409 ERROR_REVIEW_CONFLICT)
      | some none =>
        if starsOK stars then
          let r_id := db.nextReviewId
          let text := content.review_text.getD ""
          let row : Review := ⟨r_id, uid, bid, stars, text⟩
          let db' : DB := { db with
            reviews := db.reviews ++ [row]
            nextReviewId := r_id + 1 }
          let r_url := (u ++ "reviews") ++ "/" ++ toString r_id
          let b_url := u ++ "businesses/" ++ toString bid
          (db', .ok 201 ⟨r_id, uid, b_url, stars, text, r_url⟩)
        else (db, .storeError)
  | _, _, _ => (db, .err 400 ERROR_MISSING_ATTRIBUTES)

/-- `GET /reviews/<id>` (`get_review`): lookup by primary key; the raw
`business_id` is replaced by a `business` link. -/
def get_review (u : String) (db : DB) (review_id : Int) : Outcome ReviewRepr :=
  match oneOrNone (db.reviews.filter (fun r => r.id == review_id)) with
  | none => .storeError
  | some none => .err 404 ERROR_REVIEW_NOT_FOUND
  | some (some r) =>
    .ok 200 ⟨r.id, r.user_id, u ++ "businesses/" ++ toString r.business_id,
             r.stars, r.review_text, u ++ "reviews/" ++ toString review_id⟩

/-- `PUT /reviews/<id>` (`put_review`): requires `stars`, then an existence
check; `review_text` falls back to the stored value; the UPDATE is rejected
by the store when `stars` violates the CHECK constraint. -/
def put_review (u : String) (db : DB) (review_id : Int) (content : ReviewBody) :
    DB × Outcome ReviewRepr :=
  match content.stars with
  | none => (db, .err 400 ERROR_MISSING_ATTRIBUTES)
  | some stars =>
    match oneOrNone (db.reviews.filter (fun r => r.id == review_id)) with
    | none => (db, .storeError)
    | some none => (db, .err 404 ERROR_REVIEW_NOT_FOUND)
    | some (some row) =>
      let b_url := u ++ "businesses/" ++ toString row.business_id
      let r_url := u ++ "reviews/" ++ toString review_id
      let text := content.review_text.getD row.review_text
      if starsOK stars then
        let db' : DB := { db with
          reviews := db.reviews.map (fun r =>
            if r.id == review_id then
              { r with stars := stars, review_text := text }
            else r) }
        (db', .ok 200 ⟨row.id, row.user_id, b_url, stars, text, r_url⟩)
      else (db, .storeError)

/-- The representation a review gets in `GET /users/<id>/reviews`. -/
def reviewSelf (u : String) (r : Review) : ReviewRepr :=
  ⟨r.id, r.user_id, u ++ "businesses/" ++ toString r.business_id, r.stars,
   r.review_text, u ++ "reviews/" ++ toString r.id⟩

/-- `GET /users/<id>/reviews` (`get_reviews`). -/
def get_reviews (u : String) (db : DB) (user_id : Int) : List ReviewRepr :=
  (db.reviews.filter (fun r => r.user_id == user_id)).map (reviewSelf u)

/-- `DELETE /reviews/<id>` (`delete_review`). -/
def delete_review (db : DB) (review_id : Int) : DB × Outcome Unit :=
  let reviewMatches := (db.reviews.filter (fun r => r.id == review_id)).length
  let db' : DB := { db with
    reviews := db.reviews.filter (fun r => !(r.id == review_id)) }
  if reviewMatches == 1 then (db', .ok 204 ()) else (db', .err 404 ERROR_REVIEW_NOT_FOUND)

/-- One API request, as routed by method and path. -/
inductive Op where
  | postBusiness (body : Body)
  | getBusiness (business_id : Int)
  | listBusinesses (offsetArg limitArg : Option Nat)
  | listByOwner (owner_id : Int)
  | putBusiness (business_id : Int) (body : Body)
  | deleteBusiness (business_id : Int)
  | postReview (body : ReviewBody)
  | getReview (review_id : Int)
  | putReview (review_id : Int) (body : ReviewBody)
  | listByUser (user_id : Int)
  | deleteReview (review_id : Int)
  deriving Repr

/-- State transition of one sequentially executed request (GET routes do not
change the store). -/
def step (u : String) (db : DB) : Op → DB
  | .postBusiness body => (post_business u db body).1
  | .getBusiness _ => db
  | .listBusinesses _ _ => db
  | .listByOwner _ => db
  | .putBusiness bid body => (put_business u db bid body).1
  | .deleteBusiness bid => (delete_business db bid).1
  | .postReview body => (post_review u db body).1
  | .getReview _ => db
  | .putReview rid body => (put_review u db rid body).1
  | .listByUser _ => db
  | .deleteReview rid => (delete_review db rid).1

/-- The store reached from empty tables by a sequence of requests. -/
def run (u : String) (ops : List Op) : DB :=
  ops.foldl (step u) DB.empty

/-! ### Concrete fixtures used to exercise the handlers -/

/-- The six column names `post_business` / `put_business` read from the body. -/
def requiredBusinessFields : List String :=
  ["owner_id", "name", "street_address", "city", "state", "zip_code"]

/-- A well-formed six-field business body. -/
def demoBusinessBody : Body :=
  [("owner_id", .vint 10), ("name", .vstr "Pizza"),
   ("street_address", .vstr "1 Main St"), ("city", .vstr "Springfield"),
   ("state", .vstr "OR"), ("zip_code", .vstr "97475")]

/-- A well-formed review body for user 7 on business 1. -/
def demoReviewBody : ReviewBody := ⟨some 7, some 1, some 4, none⟩

/-! ### The reachability invariant -/

/-- Invariant of every store reachable from empty tables: the SERIAL
counters dominate the stored ids, primary keys are unique, the
(user_id, business_id) pairs of reviews are unique, every review references
an existing business, and every stored `stars` respects the CHECK range. -/
structure Inv (db : DB) : Prop where
  busFresh : ∀ b ∈ db.businesses, b.id < db.nextBusinessId
  revFresh : ∀ r ∈ db.reviews, r.id < db.nextReviewId
  busNodup : (db.businesses.map Business.id).Nodup
  revNodup : (db.reviews.map Review.id).Nodup
  pairNodup : (db.reviews.map (fun r => (r.user_id, r.business_id))).Nodup
  refInt : ∀ r ∈ db.reviews, ∃ b ∈ db.businesses, b.id = r.business_id
  starsRange : ∀ r ∈ db.reviews, 0 ≤ r.stars ∧ r.stars ≤ 5

/-! ### Lemmas about the store primitives -/

theorem oneOrNone_eq_some_none {α : Type} {l : List α} :
    oneOrNone l = some none ↔ l = [] := by
  cases l with
  | nil => simp [oneOrNone]
  | cons a t => cases t <;> simp [oneOrNone]

theorem oneOrNone_eq_some_some {α : Type} {l : List α} {a : α} :
    oneOrNone l = some (some a) ↔ l = [a] := by
  cases l with
  | nil => simp [oneOrNone]
  | cons b t => cases t <;> simp [oneOrNone]

/-- A filter whose predicate pins down a key takes at most the unique row
with that key: here, the positive case. -/
theorem filter_key_singleton {α β : Type} [DecidableEq β]
    (key : α → β) (p : α → Bool) (k : β)
    (hp : ∀ x, p x = true ↔ key x = k) (l : List α)
    (hnd : (l.map key).Nodup) (a : α) (ha : a ∈ l) (hk : key a = k) :
    l.filter p = [a] := by
  induction l with
  | nil => cases ha
  | cons b t ih =>
    rw [List.map_cons, List.nodup_cons] at hnd
    obtain ⟨hb, hndt⟩ := hnd
    rcases List.mem_cons.mp ha with rfl | hat
    · have hpb : p a = true := (hp a).mpr hk
      have ht : t.filter p = [] := by
        rw [List.filter_eq_nil_iff]
        intro x hx hpx
        exact hb (List.mem_map.mpr ⟨x, hx, by rw [(hp x).mp hpx, hk]⟩)
      rw [List.filter_cons, if_pos hpb, ht]
    · by_cases hpb : p b = true
      · exact absurd
          (List.mem_map.mpr ⟨a, hat, by rw [hk, (hp b).mp hpb]⟩) hb
      · rw [List.filter_cons, if_neg hpb]
        exact ih hndt hat

/-- The negative case: no row has the key, so the filter is empty. -/
theorem filter_key_nil {α β : Type} [DecidableEq β]
    (key : α → β) (p : α → Bool) (k : β)
    (hp : ∀ x, p x = true ↔ key x = k) (l : List α)
    (hnone : ∀ a ∈ l, key a ≠ k) :
    l.filter p = [] := by
  rw [List.filter_eq_nil_iff]
  intro x hx hpx
  exact hnone x hx ((hp x).mp hpx)

/-- Mapping a key-preserving row transformer leaves the key column intact. -/
theorem map_map_key {α β : Type} (key : α → β) (g : α → α)
    (hg : ∀ a, key (g a) = key a) (l : List α) :
    (l.map g).map key = l.map key := by
  rw [List.map_map]
  exact List.map_congr_left (fun a _ => hg a)

theorem insertById_perm (b : Business) (l : List Business) :
    (insertById b l).Perm (b :: l) := by
  induction l with
  | nil => exact List.Perm.refl _
  | cons c cs ih =>
    rw [insertById]
    split
    · exact List.Perm.refl _
    · exact List.Perm.trans (List.Perm.cons c ih) (List.Perm.swap b c cs)

/-- The `ORDER BY id` scan returns exactly the stored rows. -/
theorem sortById_perm (l : List Business) : (sortById l).Perm l := by
  induction l with
  | nil => exact List.Perm.refl _
  | cons b bs ih =>
    exact List.Perm.trans (insertById_perm b (sortById bs)) (List.Perm.cons b ih)

theorem insertById_sorted (b : Business) (l : List Business)
    (h : List.Sorted (fun x y => x.id ≤ y.id) l) :
    List.Sorted (fun x y => x.id ≤ y.id) (insertById b l) := by
  induction l with
  | nil => simp [insertById]
  | cons c cs ih =>
    rw [List.sorted_cons] at h
    obtain ⟨hc, hcs⟩ := h
    rw [insertById]
    split
    · rename_i hbc
      rw [List.sorted_cons]
      refine ⟨?_, List.sorted_cons.mpr ⟨hc, hcs⟩⟩
      intro x hx
      rcases List.mem_cons.mp hx with rfl | hx
      · exact hbc
      · exact le_trans hbc (hc x hx)
    · rename_i hbc
      rw [List.sorted_cons]
      refine ⟨?_, ih hcs⟩
      intro x hx
      rcases (insertById_perm b cs).mem_iff.mp hx with hx'
      rcases List.mem_cons.mp hx' with rfl | hx''
      · exact le_of_lt (lt_of_not_le hbc)
      · exact hc x hx''

/-- The `ORDER BY id` scan is sorted by ascending id. -/
theorem sortById_sorted (l : List Business) :
    List.Sorted (fun x y => x.id ≤ y.id) (sortById l) := by
  induction l with
  | nil => simp [sortById]
  | cons b bs ih => exact insertById_sorted b (sortById bs) ih

theorem inv_empty : Inv DB.empty := by
  constructor <;> simp [DB.empty]

theorem inv_append_business (db : DB) (h : Inv db) (owner : Int)
    (nm sa ci st zc : String) :
    Inv { db with
      businesses :=
        db.businesses ++ [⟨db.nextBusinessId, owner, nm, sa, ci, st, zc⟩]
      nextBusinessId := db.nextBusinessId + 1 } := by
  constructor
  · intro b hb
    rcases List.mem_append.mp hb with hb | hb
    · exact lt_trans (h.busFresh b hb) (lt_add_one _)
    · rw [List.mem_singleton.mp hb]
      exact lt_add_one _
  · exact fun r hr => h.revFresh r hr
  · rw [List.map_append]
    refine List.Nodup.append h.busNodup (by simp) ?_
    intro x hx hx'
    rw [List.map_singleton, List.mem_singleton] at hx'
    rcases List.mem_map.mp hx with ⟨b, hb, rfl⟩
    exact absurd (hx' ▸ h.busFresh b hb) (lt_irrefl _)
  · exact h.revNodup
  · exact h.pairNodup
  · intro r hr
    rcases h.refInt r hr with ⟨b, hb, hbid⟩
    exact ⟨b, List.mem_append_left _ hb, hbid⟩
  · exact h.starsRange

theorem inv_insert_review (db : DB) (h : Inv db) (uid bid s : Int)
    (text : String)
    (hbus : ∃ b ∈ db.businesses, b.id = bid)
    (hfresh : ∀ r ∈ db.reviews, ¬(r.user_id = uid ∧ r.business_id = bid))
    (hs : starsOK s) :
    Inv { db with
      reviews := db.reviews ++ [⟨db.nextReviewId, uid, bid, s, text⟩]
      nextReviewId := db.nextReviewId + 1 } := by
  constructor
  · exact fun b hb => h.busFresh b hb
  · intro r hr
    rcases List.mem_append.mp hr with hr | hr
    · exact lt_trans (h.revFresh r hr) (lt_add_one _)
    · rw [List.mem_singleton.mp hr]
      exact lt_add_one _
  · exact h.busNodup
  · rw [List.map_append]
    refine List.Nodup.append h.revNodup (by simp) ?_
    intro x hx hx'
    rw [List.map_singleton, List.mem_singleton] at hx'
    rcases List.mem_map.mp hx with ⟨r, hr, rfl⟩
    exact absurd (hx' ▸ h.revFresh r hr) (lt_irrefl _)
  · rw [List.map_append]
    refine List.Nodup.append h.pairNodup (by simp) ?_
    intro x hx hx'
    rw [List.map_singleton, List.mem_singleton] at hx'
    rcases List.mem_map.mp hx with ⟨r, hr, rfl⟩
    rw [Prod.ext_iff] at hx'
    exact hfresh r hr ⟨hx'.1, hx'.2⟩
  · intro r hr
    rcases List.mem_append.mp hr with hr | hr
    · exact h.refInt r hr
    · rw [List.mem_singleton.mp hr]
      exact hbus
  · intro r hr
    rcases List.mem_append.mp hr with hr | hr
    · exact h.starsRange r hr
    · rw [List.mem_singleton.mp hr]
      exact hs

theorem inv_update_business (db : DB) (h : Inv db) (g : Business → Business)
    (hg : ∀ b, (g b).id = b.id) :
    Inv { db with businesses := db.businesses.map g } := by
  constructor
  · intro b hb
    rcases List.mem_map.mp hb with ⟨c, hc, rfl⟩
    rw [hg c]
    exact h.busFresh c hc
  · exact fun r hr => h.revFresh r hr
  · rw [map_map_key Business.id g hg]
    exact h.busNodup
  · exact h.revNodup
  · exact h.pairNodup
  · intro r hr
    rcases h.refInt r hr with ⟨b, hb, hbid⟩
    exact ⟨g b, List.mem_map.mpr ⟨b, hb, rfl⟩, by rw [hg b]; exact hbid⟩
  · exact h.starsRange

theorem inv_update_review (db : DB) (h : Inv db) (g : Review → Review)
    (hgid : ∀ r, (g r).id = r.id)
    (hguid : ∀ r, (g r).user_id = r.user_id)
    (hgbid : ∀ r, (g r).business_id = r.business_id)
    (hgs : ∀ r ∈ db.reviews, 0 ≤ (g r).stars ∧ (g r).stars ≤ 5) :
    Inv { db with reviews := db.reviews.map g } := by
  constructor
  · exact fun b hb => h.busFresh b hb
  · intro r hr
    rcases List.mem_map.mp hr with ⟨c, hc, rfl⟩
    rw [hgid c]
    exact h.revFresh c hc
  · exact h.busNodup
  · rw [map_map_key Review.id g hgid]
    exact h.revNodup
  · rw [map_map_key (fun r => (r.user_id, r.business_id)) g
      (fun r => by simp only [hguid r, hgbid r])]
    exact h.pairNodup
  · intro r hr
    rcases List.mem_map.mp hr with ⟨c, hc, rfl⟩
    rw [hgbid c]
    exact h.refInt c hc
  · intro r hr
    rcases List.mem_map.mp hr with ⟨c, hc, rfl⟩
    exact hgs c hc

theorem inv_delete_business (db : DB) (h : Inv db) (bid : Int) :
    Inv { db with
      reviews := db.reviews.filter (fun r => !(r.business_id == bid))
      businesses := db.businesses.filter (fun b => !(b.id == bid)) } := by
  constructor
  · exact fun b hb => h.busFresh b (List.mem_filter.mp hb).1
  · exact fun r hr => h.revFresh r (List.mem_filter.mp hr).1
  · exact List.Nodup.sublist
      (List.Sublist.map _ (List.filter_sublist _)) h.busNodup
  · exact List.Nodup.sublist
      (List.Sublist.map _ (List.filter_sublist _)) h.revNodup
  · exact List.Nodup.sublist
      (List.Sublist.map _ (List.filter_sublist _)) h.pairNodup
  · intro r hr
    obtain ⟨hr, hrb⟩ := List.mem_filter.mp hr
    rcases h.refInt r hr with ⟨b, hb, hbid⟩
    refine ⟨b, List.mem_filter.mpr ⟨hb, ?_⟩, hbid⟩
    simpa [hbid] using hrb
  · exact fun r hr => h.starsRange r (List.mem_filter.mp hr).1

theorem inv_delete_review (db : DB) (h : Inv db) (rid : Int) :
    Inv { db with
      reviews := db.reviews.filter (fun r => !(r.id == rid)) } := by
  constructor
  · exact fun b hb => h.busFresh b hb
  · exact fun r hr => h.revFresh r (List.mem_filter.mp hr).1
  · exact h.busNodup
  · exact List.Nodup.sublist
      (List.Sublist.map _ (List.filter_sublist _)) h.revNodup
  · exact List.Nodup.sublist
      (List.Sublist.map _ (List.filter_sublist _)) h.pairNodup
  · exact fun r hr => h.refInt r (List.mem_filter.mp hr).1
  · exact fun r hr => h.starsRange r (List.mem_filter.mp hr).1

theorem inv_post_business_state (u : String) (db : DB) (body : Body)
    (h : Inv db) : Inv (post_business u db body).1 := by
  unfold post_business
  split
  · exact h
  · split
    · exact h
    · exact inv_append_business db h _ _ _ _ _ _

theorem inv_put_business_state (u : String) (db : DB) (bid : Int)
    (body : Body) (h : Inv db) : Inv (put_business u db bid body).1 := by
  unfold put_business
  split
  · exact h
  · split
    · exact h
    · exact h
    · split
      · exact h
      · refine inv_update_business db h _ (fun b => ?_)
        dsimp only
        split <;> rfl

theorem inv_delete_business_state (db : DB) (bid : Int) (h : Inv db) :
    Inv (delete_business db bid).1 := by
  unfold delete_business
  dsimp only
  split <;> exact inv_delete_business db h bid

theorem inv_post_review_state (u : String) (db : DB) (body : ReviewBody)
    (h : Inv db) : Inv (post_review u db body).1 := by
  unfold post_review
  split
  case h_2 => exact h
  case h_1 uid bid stars _ _ _ =>
    split
    · exact h
    · exact h
    · rename_i b heqBus
      split
      · exact h
      · exact h
      · rename_i heqPair
        split
        · rename_i hs
          refine inv_insert_review db h uid bid stars _ ?_ ?_ hs
          · rw [oneOrNone_eq_some_some] at heqBus
            have hb : b ∈ db.businesses.filter (fun x => x.id == bid) := by
              rw [heqBus]; exact List.mem_singleton.mpr rfl
            obtain ⟨hmem, hid⟩ := List.mem_filter.mp hb
            exact ⟨b, hmem, beq_iff_eq.mp hid⟩
          · rw [oneOrNone_eq_some_none, List.filter_eq_nil_iff] at heqPair
            intro r hr hcon
            exact heqPair r hr (by simp [hcon.1, hcon.2])
        · exact h

theorem inv_put_review_state (u : String) (db : DB) (rid : Int)
    (body : ReviewBody) (h : Inv db) : Inv (put_review u db rid body).1 := by
  unfold put_review
  split
  · exact h
  · split
    · exact h
    · exact h
    · split
      · rename_i hs
        refine inv_update_review db h _
          (fun r => ?_) (fun r => ?_) (fun r => ?_) (fun r hr => ?_)
        · dsimp only; split <;> rfl
        · dsimp only; split <;> rfl
        · dsimp only; split <;> rfl
        · dsimp only
          split
          · exact hs
          · exact h.starsRange r hr
      · exact h

theorem inv_delete_review_state (db : DB) (rid : Int) (h : Inv db) :
    Inv (delete_review db rid).1 := by
  unfold delete_review
  dsimp only
  split <;> exact inv_delete_review db h rid

theorem inv_step (u : String) (db : DB) (op : Op) (h : Inv db) :
    Inv (step u db op) := by
  cases op with
  | postBusiness body => exact inv_post_business_state u db body h
  | getBusiness _ => exact h
  | listBusinesses _ _ => exact h
  | listByOwner _ => exact h
  | putBusiness bid body => exact inv_put_business_state u db bid body h
  | deleteBusiness bid => exact inv_delete_business_state db bid h
  | postReview body => exact inv_post_review_state u db body h
  | getReview _ => exact h
  | putReview rid body => exact inv_put_review_state u db rid body h
  | listByUser _ => exact h
  | deleteReview rid => exact inv_delete_review_state db rid h

theorem inv_foldl (u : String) (ops : List Op) :
    ∀ db, Inv db → Inv (ops.foldl (step u) db) := by
  induction ops with
  | nil => exact fun _ h => h
  | cons op t ih => exact fun db h => ih _ (inv_step u db op h)

/-- Every store reachable by a sequence of API requests satisfies the
invariant. -/
theorem inv_run (u : String) (ops : List Op) : Inv (run u ops) :=
  inv_foldl u ops DB.empty inv_empty

/-! ### Claim theorems -/

/-- C1: in every reachable store the pair (user_id, business_id) is unique
across the stored reviews; `post_review` answers ReviewConflict 409 (leaving
the store unchanged) whenever a review for the requested pair already
exists, and `put_review` never changes the user_id or business_id column of
any stored review. -/
theorem review_pair_uniqueness (u : String) (ops : List Op) :
    ((run u ops).reviews.map (fun r => (r.user_id, r.business_id))).Nodup
    ∧ (∀ (body : ReviewBody) (uid bid s : Int),
        body.user_id = some uid → body.business_id = some bid →
        body.stars = some s →
        (∃ r ∈ (run u ops).reviews, r.user_id = uid ∧ r.business_id = bid) →
        post_review u (run u ops) body
          = (run u ops, .err 409 ERROR_REVIEW_CONFLICT))
    ∧ (∀ (db : DB) (rid : Int) (body : ReviewBody),
        (put_review u db rid body).1.reviews.map
            (fun r => (r.user_id, r.business_id))
          = db.reviews.map (fun r => (r.user_id, r.business_id))) := by
  have h := inv_run u ops
  refine ⟨h.pairNodup, ?_, ?_⟩
  · intro body uid bid s hu hb hs hex
    obtain ⟨r, hr, hru, hrb⟩ := hex
    obtain ⟨b, hbmem, hbid⟩ := h.refInt r hr
    have hfb : (run u ops).businesses.filter (fun x => x.id == bid) = [b] :=
      filter_key_singleton Business.id _ bid (fun x => by simp) _
        h.busNodup b hbmem (by rw [hbid, hrb])
    have hfr : (run u ops).reviews.filter
        (fun x => x.business_id == bid && x.user_id == uid) = [r] :=
      filter_key_singleton (fun x => (x.user_id, x.business_id)) _ (uid, bid)
        (fun x => by simp [and_comm]) _ h.pairNodup r hr
        (by simp [hru, hrb])
    simp [post_review, hu, hb, hs, hfb, hfr, oneOrNone]
  · intro db rid body
    unfold put_review
    split
    · rfl
    · split
      · rfl
      · rfl
      · split
        · exact map_map_key _ _
            (fun r => by by_cases hc : (r.id == rid) = true <;> simp [hc]) _
        · rfl

/-- C1 witness: a concrete duplicate submission for the pair (7, 1) is
refused with 409 and leaves the store unchanged. -/
theorem review_pair_uniqueness_witness :
    post_review "http://h/"
        (run "http://h/" [Op.postBusiness demoBusinessBody,
          Op.postReview demoReviewBody])
        ⟨some 7, some 1, some 5, some "again"⟩
      = (run "http://h/" [Op.postBusiness demoBusinessBody,
          Op.postReview demoReviewBody],
         .err 409 ERROR_REVIEW_CONFLICT) :=
  (review_pair_uniqueness "http://h/" [Op.postBusiness demoBusinessBody,
      Op.postReview demoReviewBody]).2.1
    ⟨some 7, some 1, some 5, some "again"⟩ 7 1 5 rfl rfl rfl (by decide)

/-- C5: in every reachable store, the business_id of each stored review is
the id of some stored business. -/
theorem review_referential_integrity (u : String) (ops : List Op) :
    ∀ r ∈ (run u ops).reviews,
      ∃ b ∈ (run u ops).businesses, b.id = r.business_id :=
  (inv_run u ops).refInt

/-- C5 witness: the review stored by a concrete run references business 1,
which the theorem shows is still stored. -/
theorem review_referential_integrity_witness :
    ∃ b ∈ (run "http://h/" [Op.postBusiness demoBusinessBody,
        Op.postReview demoReviewBody]).businesses,
      b.id = (⟨1, 7, 1, 4, ""⟩ : Review).business_id :=
  review_referential_integrity "http://h/"
    [Op.postBusiness demoBusinessBody, Op.postReview demoReviewBody]
    ⟨1, 7, 1, 4, ""⟩ (by decide)

/-- C9: every stored review of a reachable store has stars in [0,5], and a
create or update carrying stars outside that range neither succeeds (the
client observes the 500 of the violated store CHECK constraint, never a
success status) nor changes the store in any way. -/
theorem stars_range_enforced (u : String) (ops : List Op) :
    (∀ r ∈ (run u ops).reviews, 0 ≤ r.stars ∧ r.stars ≤ 5)
    ∧ (∀ (db : DB) (body : ReviewBody) (s : Int),
        body.stars = some s → ¬starsOK s →
        (post_review u db body).1 = db
        ∧ (post_review u db body).2.status ≠ 201)
    ∧ (∀ (db : DB) (rid : Int) (body : ReviewBody) (s : Int),
        body.stars = some s → ¬starsOK s →
        (put_review u db rid body).1 = db
        ∧ (put_review u db rid body).2.status ≠ 200) := by
  refine ⟨(inv_run u ops).starsRange, ?_, ?_⟩
  · intro db body s hs hrange
    unfold post_review
    split
    case h_2 => exact ⟨rfl, by simp [Outcome.status]⟩
    case h_1 uid bid stars hu' hb' hs' =>
      have hstars : stars = s := by
        rw [hs] at hs'
        exact (Option.some_injective _ hs').symm
      split
      · exact ⟨rfl, by simp [Outcome.status]⟩
      · exact ⟨rfl, by simp [Outcome.status]⟩
      · split
        · exact ⟨rfl, by simp [Outcome.status]⟩
        · exact ⟨rfl, by simp [Outcome.status]⟩
        · split
          · rename_i hok
            exact absurd (hstars ▸ hok) hrange
          · exact ⟨rfl, by simp [Outcome.status]⟩
  · intro db rid body s hs hrange
    unfold put_review
    split
    case h_1 hnone => rw [hs] at hnone; cases hnone
    case h_2 stars hmatch =>
      have hstars : stars = s := by
        rw [hs] at hmatch
        exact (Option.some_injective _ hmatch).symm
      split
      · exact ⟨rfl, by simp [Outcome.status]⟩
      · exact ⟨rfl, by simp [Outcome.status]⟩
      · split
        · rename_i hok
          exact absurd (hstars ▸ hok) hrange
        · exact ⟨rfl, by simp [Outcome.status]⟩

/-- C9 witness: submitting and updating with stars = 6 against a concrete
reachable store leaves it unchanged and does not succeed. -/
theorem stars_range_enforced_witness :
    (post_review "http://h/"
        (run "http://h/" [Op.postBusiness demoBusinessBody])
        ⟨some 7, some 1, some 6, none⟩).1
      = run "http://h/" [Op.postBusiness demoBusinessBody]
    ∧ (post_review "http://h/"
        (run "http://h/" [Op.postBusiness demoBusinessBody])
        ⟨some 7, some 1, some 6, none⟩).2.status ≠ 201 :=
  (stars_range_enforced "http://h/" [Op.postBusiness demoBusinessBody]).2.1
    (run "http://h/" [Op.postBusiness demoBusinessBody])
    ⟨some 7, some 1, some 6, none⟩ 6 rfl (by decide)

/-- C2: `delete_business` removes every review referencing the business and
the business row itself (committing both deletions, with no error when no
review matches), answers 404 exactly when the business-deletion row count is
zero and 204 with an empty body otherwise, and after a successful delete
both the business and every review that referenced it answer 404 on Get. -/
theorem delete_business_cascades (u : String) (db : DB) (hdb : Inv db)
    (bid : Int) :
    (delete_business db bid).1.reviews
        = db.reviews.filter (fun r => !(r.business_id == bid))
    ∧ (delete_business db bid).1.businesses
        = db.businesses.filter (fun b => !(b.id == bid))
    ∧ ((delete_business db bid).2 = .err 404 ERROR_BUSINESS_NOT_FOUND
        ↔ (db.businesses.filter (fun b => b.id == bid)).length = 0)
    ∧ ((∃ b ∈ db.businesses, b.id = bid) →
        (delete_business db bid).2 = .ok 204 ()
        ∧ get_business u (delete_business db bid).1 bid
            = .err 404 ERROR_BUSINESS_NOT_FOUND
        ∧ ∀ r ∈ db.reviews, r.business_id = bid →
            get_review u (delete_business db bid).1 r.id
              = .err 404 ERROR_REVIEW_NOT_FOUND) := by
  have hrev : (delete_business db bid).1.reviews
      = db.reviews.filter (fun r => !(r.business_id == bid)) := by
    unfold delete_business
    dsimp only
    split <;> rfl
  have hbus : (delete_business db bid).1.businesses
      = db.businesses.filter (fun b => !(b.id == bid)) := by
    unfold delete_business
    dsimp only
    split <;> rfl
  refine ⟨hrev, hbus, ?_, ?_⟩
  · by_cases hex : ∃ b ∈ db.businesses, b.id = bid
    · obtain ⟨b, hbmem, hbid⟩ := hex
      have hone : db.businesses.filter (fun x => x.id == bid) = [b] :=
        filter_key_singleton Business.id _ bid (fun x => by simp) _
          hdb.busNodup b hbmem hbid
      have h204 : (delete_business db bid).2 = .ok 204 () := by
        unfold delete_business
        dsimp only
        rw [if_pos (by rw [hone]; rfl)]
      rw [h204, hone]
      simp
    · have hnil : db.businesses.filter (fun x => x.id == bid) = [] :=
        filter_key_nil Business.id _ bid (fun x => by simp) _
          (fun a ha hk => hex ⟨a, ha, hk⟩)
      have h404 : (delete_business db bid).2
          = .err 404 ERROR_BUSINESS_NOT_FOUND := by
        unfold delete_business
        dsimp only
        rw [if_neg (by rw [hnil]; decide)]
      rw [h404, hnil]
      simp
  · intro hex
    obtain ⟨b, hbmem, hbid⟩ := hex
    have hone : db.businesses.filter (fun x => x.id == bid) = [b] :=
      filter_key_singleton Business.id _ bid (fun x => by simp) _
        hdb.busNodup b hbmem hbid
    have h204 : (delete_business db bid).2 = .ok 204 () := by
      unfold delete_business
      dsimp only
      rw [if_pos (by rw [hone]; rfl)]
    refine ⟨h204, ?_, ?_⟩
    · have hnil : (delete_business db bid).1.businesses.filter
          (fun x => x.id == bid) = [] := by
        rw [hbus, List.filter_eq_nil_iff]
        intro x hx hx'
        obtain ⟨_, hxne⟩ := List.mem_filter.mp hx
        simp only [Bool.not_eq_eq_eq_not, Bool.not_true, beq_eq_false_iff_ne,
          ne_eq] at hxne
        exact hxne (beq_iff_eq.mp hx')
      rw [get_business, hnil]
      rfl
    · intro r hr hrbid
      have hnil : (delete_business db bid).1.reviews.filter
          (fun x => x.id == r.id) = [] := by
        rw [hrev, List.filter_eq_nil_iff]
        intro x hx hx'
        obtain ⟨hxmem, hxne⟩ := List.mem_filter.mp hx
        have hxr : x = r :=
          List.inj_on_of_nodup_map hdb.revNodup hxmem hr (beq_iff_eq.mp hx')
        subst hxr
        simp only [Bool.not_eq_eq_eq_not, Bool.not_true, beq_eq_false_iff_ne,
          ne_eq] at hxne
        exact hxne hrbid
      rw [get_review, hnil]
      rfl

/-- C2 witness: deleting business 1 from a concrete store holding it and its
review answers 204, and both subsequent Gets answer 404. -/
theorem delete_business_cascades_witness :
    (delete_business (run "http://h/" [Op.postBusiness demoBusinessBody,
        Op.postReview demoReviewBody]) 1).2 = .ok 204 ()
    ∧ get_business "http://h/"
        (delete_business (run "http://h/" [Op.postBusiness demoBusinessBody,
          Op.postReview demoReviewBody]) 1).1 1
      = .err 404 ERROR_BUSINESS_NOT_FOUND
    ∧ get_review "http://h/"
        (delete_business (run "http://h/" [Op.postBusiness demoBusinessBody,
          Op.postReview demoReviewBody]) 1).1 (1 : Int)
      = .err 404 ERROR_REVIEW_NOT_FOUND := by
  have h := (delete_business_cascades "http://h/"
    (run "http://h/" [Op.postBusiness demoBusinessBody,
      Op.postReview demoReviewBody])
    (inv_run "http://h/" [Op.postBusiness demoBusinessBody,
      Op.postReview demoReviewBody]) 1).2.2.2 (by decide)
  exact ⟨h.1, h.2.1, h.2.2 ⟨1, 7, 1, 4, ""⟩ (by decide) (by decide)⟩

/-- C6: `get_businesses` returns the stored businesses ordered by ascending
id, skipping `offset` (default 0) and capped at `limit` (default 3), each
entry carrying a `self` link, together with a `next` link advancing `offset`
by `limit` unconditionally; on the concrete store with ids 1..5, offset 0
and limit 3 yield entries 1,2,3 with next offset=3&limit=3, and offset 5
yields no entries. -/
theorem list_businesses_pagination (u : String) (db : DB)
    (offsetArg limitArg : Option Nat) :
    get_businesses u db offsetArg limitArg
      = .ok 200 ⟨(((sortById db.businesses).drop (offsetArg.getD 0)).take
            (limitArg.getD 3)).map (businessSelf u),
          u ++ "businesses?offset="
            ++ toString (offsetArg.getD 0 + limitArg.getD 3)
            ++ "&limit=" ++ toString (limitArg.getD 3)⟩
    ∧ (sortById db.businesses).Perm db.businesses
    ∧ List.Sorted (fun x y => x ≤ y)
        (((((sortById db.businesses).drop (offsetArg.getD 0)).take
            (limitArg.getD 3)).map (businessSelf u)).map BusinessRepr.id)
    ∧ ((((sortById db.businesses).drop (offsetArg.getD 0)).take
        (limitArg.getD 3)).map (businessSelf u)).length ≤ limitArg.getD 3
    ∧ (∀ e ∈ (((sortById db.businesses).drop (offsetArg.getD 0)).take
          (limitArg.getD 3)).map (businessSelf u),
        e.self = u ++ "businesses/" ++ toString e.id)
    ∧ get_businesses "http://h/"
        (run "http://h/" (List.replicate 5 (Op.postBusiness demoBusinessBody)))
        (some 0) (some 3)
      = .ok 200 ⟨[⟨1, 10, "Pizza", "1 Main St", "Springfield", "OR", "97475",
            "http://h/businesses/1"⟩,
          ⟨2, 10, "Pizza", "1 Main St", "Springfield", "OR", "97475",
            "http://h/businesses/2"⟩,
          ⟨3, 10, "Pizza", "1 Main St", "Springfield", "OR", "97475",
            "http://h/businesses/3"⟩],
          "http://h/businesses?offset=3&limit=3"⟩
    ∧ get_businesses "http://h/"
        (run "http://h/" (List.replicate 5 (Op.postBusiness demoBusinessBody)))
        (some 5) (some 3)
      = .ok 200 ⟨[], "http://h/businesses?offset=8&limit=3"⟩ := by
  refine ⟨rfl, sortById_perm _, ?_, ?_, ?_, by decide, by decide⟩
  · have hsub : List.Sublist
        (((sortById db.businesses).drop (offsetArg.getD 0)).take
          (limitArg.getD 3))
        (sortById db.businesses) :=
      (List.take_sublist _ _).trans (List.drop_sublist _ _)
    have hpw := List.Pairwise.sublist hsub (sortById_sorted db.businesses)
    rw [List.map_map]
    exact List.pairwise_map.mpr hpw
  · rw [List.length_map]
    have := List.length_take (limitArg.getD 3)
      ((sortById db.businesses).drop (offsetArg.getD 0))
    omega
  · intro e he
    rcases List.mem_map.mp he with ⟨b, _, rfl⟩
    rfl

/-- C6 witness: the self link of the first listed entry of the concrete
five-business store has the shape the theorem states. -/
theorem list_businesses_pagination_witness :
    (⟨1, 10, "Pizza", "1 Main St", "Springfield", "OR", "97475",
        "http://h/businesses/1"⟩ : BusinessRepr).self
      = "http://h/" ++ "businesses/"
        ++ toString (⟨1, 10, "Pizza", "1 Main St", "Springfield", "OR",
            "97475", "http://h/businesses/1"⟩ : BusinessRepr).id :=
  (list_businesses_pagination "http://h/"
      (run "http://h/" (List.replicate 5 (Op.postBusiness demoBusinessBody)))
      (some 0) (some 3)).2.2.2.2.1
    ⟨1, 10, "Pizza", "1 Main St", "Springfield", "OR", "97475",
      "http://h/businesses/1"⟩ (by decide)

/-- C4: `post_business` and `put_business` answer MissingAttributes 400
exactly when the body's field count differs from 6; hence a body whose
(distinct) keys lie among the six required fields but miss one is refused,
a body with the six required fields plus an extra key is refused, and a
body whose keys are exactly the six required fields passes the validation. -/
theorem business_field_count_check (u : String) (db : DB) (bid : Int)
    (body : Body) :
    ((post_business u db body).2 = .err 400 ERROR_MISSING_ATTRIBUTES
      ↔ body.length ≠ 6)
    ∧ ((put_business u db bid body).2 = .err 400 ERROR_MISSING_ATTRIBUTES
      ↔ body.length ≠ 6)
    ∧ ((body.map Prod.fst).Nodup →
        (∀ k ∈ body.map Prod.fst, k ∈ requiredBusinessFields) →
        (∃ k ∈ requiredBusinessFields, k ∉ body.map Prod.fst) →
        (post_business u db body).2 = .err 400 ERROR_MISSING_ATTRIBUTES
        ∧ (put_business u db bid body).2 = .err 400 ERROR_MISSING_ATTRIBUTES)
    ∧ ((body.map Prod.fst).Nodup →
        (∀ k ∈ requiredBusinessFields, k ∈ body.map Prod.fst) →
        (∃ k ∈ body.map Prod.fst, k ∉ requiredBusinessFields) →
        (post_business u db body).2 = .err 400 ERROR_MISSING_ATTRIBUTES
        ∧ (put_business u db bid body).2 = .err 400 ERROR_MISSING_ATTRIBUTES)
    ∧ ((body.map Prod.fst).Perm requiredBusinessFields →
        (post_business u db body).2 ≠ .err 400 ERROR_MISSING_ATTRIBUTES
        ∧ (put_business u db bid body).2
          ≠ .err 400 ERROR_MISSING_ATTRIBUTES) := by
  have hpost : (post_business u db body).2
      = .err 400 ERROR_MISSING_ATTRIBUTES ↔ body.length ≠ 6 := by
    unfold post_business
    by_cases hlen : body.length ≠ 6
    · rw [if_pos hlen]
      simp [hlen]
    · rw [if_neg hlen]
      rcases hbf : body.businessFields with _ | f
      · simp [hlen]
      · obtain ⟨o, nm, sa, ci, st, zc⟩ := f
        simp [hlen]
  have hput : (put_business u db bid body).2
      = .err 400 ERROR_MISSING_ATTRIBUTES ↔ body.length ≠ 6 := by
    unfold put_business
    by_cases hlen : body.length ≠ 6
    · rw [if_pos hlen]
      simp [hlen]
    · rw [if_neg hlen]
      rcases hoo : oneOrNone (db.businesses.filter (fun b => b.id == bid))
          with _ | ob
      · simp [hoo, hlen]
      · rcases ob with _ | b
        · simp [hoo, hlen]
        · rcases hbf : body.businessFields with _ | f
          · simp [hoo, hbf, hlen]
          · obtain ⟨o, nm, sa, ci, st, zc⟩ := f
            simp [hoo, hbf, hlen]
  refine ⟨hpost, hput, ?_, ?_, ?_⟩
  · intro hnd hall hmiss
    obtain ⟨k, hkreq, hknot⟩ := hmiss
    have hsub : body.map Prod.fst ⊆ requiredBusinessFields.erase k := by
      intro x hx
      have hxk : x ≠ k := fun h => hknot (h ▸ hx)
      exact (List.mem_erase_of_ne hxk).mpr (hall x hx)
    have hle := (List.subperm_of_subset hnd hsub).length_le
    have herase := List.length_erase_of_mem hkreq
    have hlenmap := List.length_map body Prod.fst
    have hreq : requiredBusinessFields.length = 6 := by decide
    exact ⟨hpost.mpr (by omega), hput.mpr (by omega)⟩
  · intro hnd hall hextra
    obtain ⟨k, hkin, hknotreq⟩ := hextra
    have hnd7 : (requiredBusinessFields ++ [k]).Nodup := by
      rw [List.nodup_append]
      refine ⟨by decide, List.nodup_singleton k, ?_⟩
      intro x hx hx'
      rw [List.mem_singleton] at hx'
      exact hknotreq (hx' ▸ hx)
    have hsub : requiredBusinessFields ++ [k] ⊆ body.map Prod.fst := by
      intro x hx
      rcases List.mem_append.mp hx with hx | hx
      · exact hall x hx
      · rw [List.mem_singleton] at hx
        exact hx ▸ hkin
    have hle := (List.subperm_of_subset hnd7 hsub).length_le
    have hlenmap := List.length_map body Prod.fst
    have hreq7 : (requiredBusinessFields ++ [k]).length = 7 := by
      simp [requiredBusinessFields]
    exact ⟨hpost.mpr (by omega), hput.mpr (by omega)⟩
  · intro hperm
    have h6 : body.length = 6 := by
      have := hperm.length_eq
      rw [List.length_map] at this
      rw [this]
      rfl
    exact ⟨fun hcon => absurd h6 (hpost.mp hcon),
           fun hcon => absurd h6 (hput.mp hcon)⟩

/-- C4 witness: a five-field body and a seven-field body are refused with
400 by both handlers, while the exact six-field body passes validation. -/
theorem business_field_count_check_witness :
    ((post_business "http://h/" DB.empty (demoBusinessBody.take 5)).2
      = .err 400 ERROR_MISSING_ATTRIBUTES
    ∧ (put_business "http://h/" DB.empty 1 (demoBusinessBody.take 5)).2
      = .err 400 ERROR_MISSING_ATTRIBUTES)
    ∧ ((post_business "http://h/" DB.empty
          (demoBusinessBody ++ [("extra", .vint 0)])).2
        = .err 400 ERROR_MISSING_ATTRIBUTES
    ∧ (put_business "http://h/" DB.empty 1
          (demoBusinessBody ++ [("extra", .vint 0)])).2
        = .err 400 ERROR_MISSING_ATTRIBUTES)
    ∧ ((post_business "http://h/" DB.empty demoBusinessBody).2
        ≠ .err 400 ERROR_MISSING_ATTRIBUTES
    ∧ (put_business "http://h/" DB.empty 1 demoBusinessBody).2
        ≠ .err 400 ERROR_MISSING_ATTRIBUTES) :=
  ⟨(business_field_count_check "http://h/" DB.empty 1
      (demoBusinessBody.take 5)).2.2.1 (by decide) (by decide) (by decide),
   (business_field_count_check "http://h/" DB.empty 1
      (demoBusinessBody ++ [("extra", .vint 0)])).2.2.2.1
      (by decide) (by decide) (by decide),
   (business_field_count_check "http://h/" DB.empty 1
      demoBusinessBody).2.2.2.2 (by decide)⟩

/-- C8: with a six-field body, `post_business` answers 201 carrying the
store-generated id and the supplied field values, and a subsequent
`get_business` with that id returns the same six field values. -/
theorem create_then_get_business (u u2 : String) (db : DB) (hdb : Inv db)
    (body : Body) (owner : Int) (nm sa ci st zc : String)
    (hlen : body.length = 6)
    (hfields : body.businessFields = some (owner, nm, sa, ci, st, zc)) :
    (post_business u db body).2
      = .ok 201 ⟨db.nextBusinessId, owner, nm, sa, ci, st, zc,
          (u ++ "businesses") ++ toString db.nextBusinessId⟩
    ∧ get_business u2 (post_business u db body).1 db.nextBusinessId
      = .ok 200 ⟨db.nextBusinessId, owner, nm, sa, ci, st, zc,
          u2 ++ "businesses/" ++ toString db.nextBusinessId⟩ := by
  have hres : post_business u db body
      = ({ db with
            businesses := db.businesses
              ++ [⟨db.nextBusinessId, owner, nm, sa, ci, st, zc⟩]
            nextBusinessId := db.nextBusinessId + 1 },
         .ok 201 ⟨db.nextBusinessId, owner, nm, sa, ci, st, zc,
           (u ++ "businesses") ++ toString db.nextBusinessId⟩) := by
    unfold post_business
    rw [if_neg (by omega), hfields]
  refine ⟨by rw [hres], ?_⟩
  rw [hres]
  have hnd := (inv_append_business db hdb owner nm sa ci st zc).busNodup
  have hfil : List.filter (fun x => x.id == db.nextBusinessId)
        (db.businesses
          ++ [(⟨db.nextBusinessId, owner, nm, sa, ci, st, zc⟩ : Business)])
      = [(⟨db.nextBusinessId, owner, nm, sa, ci, st, zc⟩ : Business)] :=
    filter_key_singleton Business.id _ db.nextBusinessId (fun x => by simp) _
      hnd _ (List.mem_append_right _ (List.mem_singleton.mpr rfl)) rfl
  simp [get_business, hfil, oneOrNone]

/-- C8 witness: creating the demo business in the empty store and reading it
back returns the same six field values. -/
theorem create_then_get_business_witness :
    (post_business "http://h/" DB.empty demoBusinessBody).2
      = .ok 201 ⟨1, 10, "Pizza", "1 Main St", "Springfield", "OR", "97475",
          "http://h/businesses1"⟩
    ∧ get_business "http://h/"
        (post_business "http://h/" DB.empty demoBusinessBody).1 1
      = .ok 200 ⟨1, 10, "Pizza", "1 Main St", "Springfield", "OR", "97475",
          "http://h/businesses/1"⟩ := by
  have h := create_then_get_business "http://h/" "http://h/" DB.empty
    inv_empty demoBusinessBody 10 "Pizza" "1 Main St" "Springfield" "OR"
    "97475" (by decide) (by decide)
  exact ⟨h.1.trans (by decide), h.2.trans (by decide)⟩

/-- C10 (evaluation of the divergence): the `self` link of a successful
`post_business` is the request URL with the new id glued on without a
separator, which differs from the URL at which `get_business` serves the
resource (base URL with a slash before the id). -/
theorem post_business_self_link_diverges :
    (post_business "http://h/" DB.empty demoBusinessBody).2
      = .ok 201 ⟨1, 10, "Pizza", "1 Main St", "Springfield", "OR", "97475",
          "http://h/businesses1"⟩
    ∧ get_business "http://h/"
        (post_business "http://h/" DB.empty demoBusinessBody).1 1
      = .ok 200 ⟨1, 10, "Pizza", "1 Main St", "Springfield", "OR", "97475",
          "http://h/businesses/1"⟩
    ∧ ("http://h/businesses1" : String) ≠ "http://h/businesses/1" := by
  decide

/-- C3 counterexample: a review body with all three required fields, an
existing business and no conflicting review nevertheless does not insert a
row and does not answer 201 when stars is 6 — the store CHECK constraint
rejects the INSERT. -/
theorem post_review_success_branch_counterexample :
    (run "http://h/" [Op.postBusiness demoBusinessBody]).reviews = []
    ∧ (∃ b ∈ (run "http://h/" [Op.postBusiness demoBusinessBody]).businesses,
        b.id = 1)
    ∧ (post_review "http://h/"
        (run "http://h/" [Op.postBusiness demoBusinessBody])
        ⟨some 7, some 1, some 6, none⟩).2 = .storeError
    ∧ (post_review "http://h/"
        (run "http://h/" [Op.postBusiness demoBusinessBody])
        ⟨some 7, some 1, some 6, none⟩).1.reviews = [] := by
  decide

/-- C3 amended: `post_review` applies the missing-attribute check, the
business-existence check and the conflict check in that order, and then,
provided stars lies in the store range [0,5], inserts exactly one row with
review_text defaulting to the empty string and answers 201 with business
and self links; when stars is outside the range the store rejects the
insert (500) and no row is inserted; no failure branch changes the store. -/
theorem post_review_checks_in_order (u : String) (db : DB) (hdb : Inv db)
    (body : ReviewBody) :
    (body.user_id = none ∨ body.business_id = none ∨ body.stars = none →
      post_review u db body = (db, .err 400 ERROR_MISSING_ATTRIBUTES))
    ∧ (∀ uid bid s : Int, body.user_id = some uid →
        body.business_id = some bid → body.stars = some s →
        ((∀ b ∈ db.businesses, b.id ≠ bid) →
          post_review u db body = (db, .err 404 ERROR_BUSINESS_NOT_FOUND))
        ∧ (∀ b ∈ db.businesses, b.id = bid →
            ((∃ r ∈ db.reviews, r.user_id = uid ∧ r.business_id = bid) →
              post_review u db body = (db, .err 409 ERROR_REVIEW_CONFLICT))
            ∧ ((∀ r ∈ db.reviews,
                  ¬(r.user_id = uid ∧ r.business_id = bid)) →
                (starsOK s →
                  post_review u db body
                    = ({ db with
                          reviews := db.reviews
                            ++ [⟨db.nextReviewId, uid, bid, s,
                                body.review_text.getD ""⟩]
                          nextReviewId := db.nextReviewId + 1 },
                        .ok 201 ⟨db.nextReviewId, uid,
                          u ++ "businesses/" ++ toString bid, s,
                          body.review_text.getD "",
                          (u ++ "reviews") ++ "/"
                            ++ toString db.nextReviewId⟩))
                ∧ (¬starsOK s →
                    post_review u db body = (db, .storeError))))) := by
  obtain ⟨bu, bb, bs, bt⟩ := body
  constructor
  · intro hnone
    rcases bu with _ | x
    · rfl
    · rcases bb with _ | y
      · rfl
      · rcases bs with _ | z
        · rfl
        · rcases hnone with h | h | h <;> exact Option.noConfusion h
  · intro uid bid s hu hb hs
    rcases bu with _ | x
    · simp at hu
    · rcases bb with _ | y
      · simp at hb
      · rcases bs with _ | z
        · simp at hs
        · have hx : uid = x := by injection hu with h; exact h.symm
          have hy : bid = y := by injection hb with h; exact h.symm
          have hz : s = z := by injection hs with h; exact h.symm
          subst hx; subst hy; subst hz
          constructor
          · intro hnone
            have hfil : db.businesses.filter (fun b => b.id == bid) = [] :=
              filter_key_nil Business.id _ bid (fun b => by simp) _ hnone
            simp [post_review, hfil, oneOrNone]
          · intro b hbmem hbid
            have hfil : db.businesses.filter (fun x => x.id == bid) = [b] :=
              filter_key_singleton Business.id _ bid (fun x => by simp) _
                hdb.busNodup b hbmem hbid
            constructor
            · intro hex
              obtain ⟨r, hr, hru, hrb⟩ := hex
              have hfr : db.reviews.filter
                  (fun x => x.business_id == bid && x.user_id == uid)
                  = [r] :=
                filter_key_singleton (fun x => (x.user_id, x.business_id)) _
                  (uid, bid) (fun x => by simp [and_comm]) _ hdb.pairNodup
                  r hr (by simp [hru, hrb])
              simp [post_review, hfil, hfr, oneOrNone]
            · intro hnoc
              have hfr : db.reviews.filter
                  (fun x => x.business_id == bid && x.user_id == uid)
                  = [] :=
                filter_key_nil (fun x => (x.user_id, x.business_id)) _
                  (uid, bid) (fun x => by simp [and_comm]) _
                  (fun r hr hk => hnoc r hr
                    (by rw [Prod.ext_iff] at hk; exact ⟨hk.1, hk.2⟩))
              constructor
              · intro hsOK
                simp [post_review, hfil, hfr, oneOrNone, hsOK]
              · intro hsBad
                simp [post_review, hfil, hfr, oneOrNone, hsBad]

/-- C3 witness: a complete valid submission against a store holding the
referenced business inserts exactly one row, defaults nothing (text given),
and answers 201 with the business and self links. -/
theorem post_review_checks_in_order_witness :
    post_review "http://h/" (run "http://h/" [Op.postBusiness demoBusinessBody])
        ⟨some 7, some 1, some 4, some "good"⟩
      = ({ businesses := [⟨1, 10, "Pizza", "1 Main St", "Springfield", "OR",
              "97475"⟩],
           reviews := [⟨1, 7, 1, 4, "good"⟩],
           nextBusinessId := 2, nextReviewId := 2 },
         .ok 201 ⟨1, 7, "http://h/businesses/1", 4, "good",
           "http://h/reviews/1"⟩) := by
  have h := ((((post_review_checks_in_order "http://h/"
      (run "http://h/" [Op.postBusiness demoBusinessBody])
      (inv_run "http://h/" [Op.postBusiness demoBusinessBody])
      ⟨some 7, some 1, some 4, some "good"⟩).2 7 1 4 rfl rfl rfl).2
      ⟨1, 10, "Pizza", "1 Main St", "Springfield", "OR", "97475"⟩
      (by decide) (by decide)).2 (by decide)).1 (by decide)
  exact h.trans (by decide)

/-- C7 counterexample: an update whose body carries stars = 6 against an
existing review does not overwrite anything — the store CHECK constraint
rejects the UPDATE, the stored row keeps stars = 4, and the client sees a
500 instead of the updated representation. -/
theorem put_review_overwrite_counterexample :
    ((⟨none, none, some 6, some "new text"⟩ : ReviewBody).stars = some 6)
    ∧ (⟨1, 7, 1, 4, ""⟩ : Review)
        ∈ (run "http://h/" [Op.postBusiness demoBusinessBody,
            Op.postReview demoReviewBody]).reviews
    ∧ (put_review "http://h/"
        (run "http://h/" [Op.postBusiness demoBusinessBody,
          Op.postReview demoReviewBody]) 1
        ⟨none, none, some 6, some "new text"⟩).2 = .storeError
    ∧ (put_review "http://h/"
        (run "http://h/" [Op.postBusiness demoBusinessBody,
          Op.postReview demoReviewBody]) 1
        ⟨none, none, some 6, some "new text"⟩).1
      = run "http://h/" [Op.postBusiness demoBusinessBody,
          Op.postReview demoReviewBody] := by
  decide

/-- C7 amended: `put_review` answers 400 when stars is absent and 404 when
no row with the id exists; otherwise, provided stars lies in the store
range [0,5], it overwrites stars, overwrites review_text exactly when the
body supplies it (preserving the stored value when omitted), leaves id and
user_id unchanged, and answers 200 with business and self links; when stars
is outside [0,5] the store rejects the UPDATE and the row is unchanged. -/
theorem put_review_branch_spec (u : String) (db : DB) (hdb : Inv db)
    (rid : Int) (body : ReviewBody) :
    (body.stars = none →
      put_review u db rid body = (db, .err 400 ERROR_MISSING_ATTRIBUTES))
    ∧ (∀ s : Int, body.stars = some s →
        ((∀ r ∈ db.reviews, r.id ≠ rid) →
          put_review u db rid body = (db, .err 404 ERROR_REVIEW_NOT_FOUND))
        ∧ (∀ row ∈ db.reviews, row.id = rid →
            (starsOK s →
              put_review u db rid body
                = ({ db with reviews := db.reviews.map (fun r =>
                      if r.id == rid then
                        ⟨r.id, r.user_id, r.business_id, s,
                          body.review_text.getD row.review_text⟩
                      else r) },
                    .ok 200 ⟨row.id, row.user_id,
                      u ++ "businesses/" ++ toString row.business_id, s,
                      body.review_text.getD row.review_text,
                      u ++ "reviews/" ++ toString rid⟩))
            ∧ (¬starsOK s →
                put_review u db rid body = (db, .storeError)))) := by
  obtain ⟨bu, bb, bs, bt⟩ := body
  constructor
  · intro hnone
    rcases bs with _ | z
    · rfl
    · exact Option.noConfusion hnone
  · intro s hs
    rcases bs with _ | z
    · simp at hs
    · have hz : s = z := by injection hs with h; exact h.symm
      subst hz
      constructor
      · intro hnone
        have hfil : db.reviews.filter (fun r => r.id == rid) = [] :=
          filter_key_nil Review.id _ rid (fun r => by simp) _ hnone
        simp [put_review, hfil, oneOrNone]
      · intro row hrmem hrid
        have hfil : db.reviews.filter (fun r => r.id == rid) = [row] :=
          filter_key_singleton Review.id _ rid (fun r => by simp) _
            hdb.revNodup row hrmem hrid
        constructor
        · intro hsOK
          simp [put_review, hfil, oneOrNone, hsOK]
        · intro hsBad
          simp [put_review, hfil, oneOrNone, hsBad]

/-- C7 witness: updating the stored review with stars 2 and no review_text
overwrites stars, preserves the empty stored text, keeps id and user_id,
and answers 200 with the links. -/
theorem put_review_branch_spec_witness :
    put_review "http://h/"
        (run "http://h/" [Op.postBusiness demoBusinessBody,
          Op.postReview demoReviewBody]) 1 ⟨none, none, some 2, none⟩
      = ({ businesses := [⟨1, 10, "Pizza", "1 Main St", "Springfield", "OR",
              "97475"⟩],
           reviews := [⟨1, 7, 1, 2, ""⟩],
           nextBusinessId := 2, nextReviewId := 2 },
         .ok 200 ⟨1, 7, "http://h/businesses/1", 2, "",
           "http://h/reviews/1"⟩) := by
  have h := (((put_review_branch_spec "http://h/"
      (run "http://h/" [Op.postBusiness demoBusinessBody,
        Op.postReview demoReviewBody])
      (inv_run "http://h/" [Op.postBusiness demoBusinessBody,
        Op.postReview demoReviewBody]) 1
      ⟨none, none, some 2, none⟩).2 2 rfl).2
      ⟨1, 7, 1, 4, ""⟩ (by decide) rfl).1 (by decide)
  exact h.trans (by decide)

end RestApi
